import Mathlib

/-!
Verification of the Array / Point / Line / Circle core of the
QuantNet C++-to-Rust exercise repository.

Shallow embedding conventions:
* `f64` coordinates and radii are modelled as exact rationals (`ℚ`);
  the arithmetic the verified code performs on them is `+`, `-`, `*`,
  `/`, `abs` and comparisons, all of which exist on `ℚ` with the real
  semantics the specification describes.
* `f64::sqrt` has no rational counterpart, so it is taken as an
  abstract function parameter `sqrt : ℚ → ℚ`; every theorem below that
  mentions a distance holds for an arbitrary `sqrt`, which in
  particular covers the real square root.
* A Rust panic (out-of-bounds `Vec` indexing) is modelled by `Option`:
  `none` is the panic, `some v` is a normal return of `v`.
* `&mut`-based mutation is modelled by explicit state passing: a
  mutating method takes the receiver and returns the updated value.
-/

namespace QN

/-- Two-dimensional point value type, `struct Point { x: f64, y: f64 }`
from `point.rs` (Level4 Sect2.5 and the identical
`paul_lopez/cad/point.rs`). Coordinates are modelled as `ℚ`. -/
structure Point where
  x : ℚ
  y : ℚ
deriving DecidableEq, Repr

/-- `Point::new(x, y)`. -/
def Point.new (x y : ℚ) : Point := ⟨x, y⟩

/-- `Point::default()`, the origin `(0.0, 0.0)`. -/
def Point.default : Point := Point.new 0 0

/-- `impl Add for Point`: componentwise sum, `Point::new(self.x + other.x, self.y + other.y)`. -/
instance : Add Point := ⟨fun p other => Point.new (p.x + other.x) (p.y + other.y)⟩

/-- `impl Mul<f64> for Point`: `Point::new(self.x * factor, self.y * factor)`. -/
def Point.mul (p : Point) (factor : ℚ) : Point := Point.new (p.x * factor) (p.y * factor)

/-- `Point::distance`: `let dx = self.x - other.x; let dy = self.y - other.y;
(dx * dx + dy * dy).sqrt()`, with `f64::sqrt` abstracted as a parameter. -/
def Point.distance (sqrt : ℚ → ℚ) (p other : Point) : ℚ :=
  sqrt ((p.x - other.x) * (p.x - other.x) + (p.y - other.y) * (p.y - other.y))

/-- The Array class of `array.rs`: `pub struct Array { data: Vec<Point> }`
(Level4 Sect2.5 Exercise3 and the identical container in
`paul_lopez/containers/array.rs`). The backing `Vec<Point>` is a `List Point`. -/
structure Array where
  data : List Point
deriving DecidableEq, Repr

/-- `Array::from_vec` / `impl From<Vec<Point>> for Array`: wraps the vector. -/
def Array.from_vec (vec : List Point) : Array := ⟨vec⟩

/-- `impl From<Array> for Vec<Point>`: returns the backing vector. -/
def Array.to_vec (a : Array) : List Point := a.data

/-- `Array::size`: `self.data.len()`. -/
def Array.size (a : Array) : Nat := a.data.length

/-- `Array::with_size(size)`: `size` default-constructed points. -/
def Array.with_size (size : Nat) : Array := ⟨List.replicate size Point.default⟩

/-- `Array::set_element`: writes at `index` when `index < self.data.len()`,
otherwise ignores the call. -/
def Array.set_element (a : Array) (index : Nat) (point : Point) : Array :=
  if index < a.data.length then ⟨a.data.set index point⟩ else a

/-- `Array::get_element`: returns `self.data[index]` when in bounds and
`self.data[0]` otherwise. The `Option` records that the fallback
`self.data[0]` panics on an empty vector (`none`); the guarded branch is
always `some`. -/
def Array.get_element (a : Array) (index : Nat) : Option Point :=
  if index < a.data.length then a.data[index]? else a.data[0]?

/-- `impl Index<usize> for Array`: same body as `get_element`
(`&self.data[index]` when in bounds, else `&self.data[0]`). -/
def Array.index (a : Array) (index : Nat) : Option Point :=
  if index < a.data.length then a.data[index]? else a.data[0]?

/-- A write through `impl IndexMut<usize> for Array`: `index_mut` hands out
`&mut self.data[index]` when in bounds and `&mut self.data[0]` otherwise, so
an assignment through it stores at `index` or at slot 0; on an empty vector
`&mut self.data[0]` panics (`none`). -/
def Array.index_mut_write (a : Array) (index : Nat) (point : Point) : Option Array :=
  if index < a.data.length then some ⟨a.data.set index point⟩
  else if 0 < a.data.length then some ⟨a.data.set 0 point⟩
  else none

/-- `#[derive(Clone)]` on `Array`: clones the backing `Vec<Point>`, an
element-by-element deep copy into fresh storage. In the embedding the copy
is the same list of values. -/
def Array.clone (a : Array) : Array := ⟨a.data⟩

/-- `Array::resize(new_size)`: `self.data.resize(new_size, Point::default())` —
truncates when shrinking, pads with default points when growing. -/
def Array.resize (a : Array) (new_size : Nat) : Array :=
  if new_size ≤ a.data.length then ⟨a.data.take new_size⟩
  else ⟨a.data ++ List.replicate (new_size - a.data.length) Point.default⟩

/-- `Array::centroid` (`paul_lopez/containers/array.rs`): returns
`Point::default()` when empty, otherwise folds `acc + p` from
`Point::new(0.0, 0.0)` and scales by `1.0 / len`. -/
def Array.centroid (a : Array) : Point :=
  if a.data.isEmpty then Point.default
  else (a.data.foldl (fun acc p => acc + p) (Point.new 0 0)).mul (1 / (a.data.length : ℚ))

/-- `Array::total_path_distance` (`paul_lopez/containers/array.rs`): `0.0`
when fewer than two points, otherwise the sum over `windows(2)` of the
distance between the two points of each window. `windows(2)` is embedded as
`zip` with the tail. -/
def Array.total_path_distance (sqrt : ℚ → ℚ) (a : Array) : ℚ :=
  if a.data.length < 2 then 0
  else ((a.data.zip a.data.tail).map (fun w => Point.distance sqrt w.1 w.2)).sum

/-- State after `let b = a.clone();` followed by a write into the source
`a.set_element(i, p)`: first component the mutated source, second the clone. -/
def Array.clone_write_source (a : Array) (i : Nat) (p : Point) : Array × Array :=
  (a.set_element i p, a.clone)

/-- State after `let mut b = a.clone();` followed by a write into the clone
`b.set_element(i, p)`: first component the untouched source, second the
mutated clone. -/
def Array.clone_write_clone (a : Array) (i : Nat) (p : Point) : Array × Array :=
  (a, (a.clone).set_element i p)

/-- `Line` from `paul_lopez/cad/line.rs`: `{ start: Point, end: Point }`.
The Rust field `end` is a Lean keyword and is embedded as `endp`. -/
structure Line where
  start : Point
  endp : Point
deriving DecidableEq, Repr

/-- `f64::EPSILON`, the machine epsilon of binary64, exactly `2 ^ (-52)`. -/
def f64_EPSILON : ℚ := 1 / 2 ^ 52

/-- `Line::slope`: `dx = end.x - start.x`, `dy = end.y - start.y`; `None`
when `dx.abs() < f64::EPSILON` (vertical line), otherwise `Some(dy / dx)`. -/
def Line.slope (l : Line) : Option ℚ :=
  let dx := l.endp.x - l.start.x
  let dy := l.endp.y - l.start.y
  if |dx| < f64_EPSILON then none else some (dy / dx)

/-- `Circle` from `paul_lopez/cad/circle.rs`: `{ center: Point, radius: f64 }`. -/
structure Circle where
  center : Point
  radius : ℚ
deriving DecidableEq, Repr

/-- `Circle::intersects`: computes `center_distance`, `radius_sum`,
`radius_diff = (r1 - r2).abs()` and returns
`center_distance >= radius_diff && center_distance <= radius_sum`. -/
def Circle.intersects (sqrt : ℚ → ℚ) (c other : Circle) : Bool :=
  let center_distance := Point.distance sqrt c.center other.center
  let radius_sum := c.radius + other.radius
  let radius_diff := |c.radius - other.radius|
  decide (center_distance ≥ radius_diff) && decide (center_distance ≤ radius_sum)

/-- Unfolding of the Add instance on Point into components. -/
theorem Point.add_def (p other : Point) : p + other = Point.new (p.x + other.x) (p.y + other.y) :=
  rfl

/-- The x component of the centroid fold is the starting x plus the sum of
the x components. -/
theorem foldl_add_x (l : List Point) (init : Point) :
    (List.foldl (fun acc p => acc + p) init l).x = init.x + (l.map Point.x).sum := by
  induction l generalizing init with
  | nil => simp
  | cons p t ih =>
    simp only [List.foldl_cons, List.map_cons, List.sum_cons, ih]
    simp [Point.add_def, Point.new, add_assoc]

/-- The y component of the centroid fold is the starting y plus the sum of
the y components. -/
theorem foldl_add_y (l : List Point) (init : Point) :
    (List.foldl (fun acc p => acc + p) init l).y = init.y + (l.map Point.y).sum := by
  induction l generalizing init with
  | nil => simp
  | cons p t ih =>
    simp only [List.foldl_cons, List.map_cons, List.sum_cons, ih]
    simp [Point.add_def, Point.new, add_assoc]

/-- The `windows(2)` distance sum equals the indexed sum of consecutive-pair
distances. -/
theorem zip_tail_distance_sum (sqrt : ℚ → ℚ) (l : List Point) :
    ((l.zip l.tail).map (fun w => Point.distance sqrt w.1 w.2)).sum =
      ∑ i ∈ Finset.range (l.length - 1),
        Point.distance sqrt (l.getD i Point.default) (l.getD (i + 1) Point.default) := by
  induction l with
  | nil => simp
  | cons p t ih =>
    cases t with
    | nil => simp
    | cons q t2 =>
      simp only [List.tail_cons, List.getD_cons_succ] at ih
      simp only [List.tail_cons, List.zip_cons_cons, List.map_cons, List.sum_cons]
      have hlen : (p :: q :: t2).length - 1 = ((q :: t2).length - 1) + 1 := by simp
      rw [hlen, Finset.sum_range_succ']
      simp only [List.getD_cons_succ, List.getD_cons_zero]
      rw [ih, add_comm]

/-- Claim C1 as stated is false at the empty Array: every index operation
takes the fallback branch `self.data[0]`, which on a length-0 `Vec` panics
(modelled as `none`), so the operations do not all avoid panicking when the
array has length 0. -/
theorem index_ops_empty_array_panics :
    (Array.from_vec []).get_element 0 = none ∧
    (Array.from_vec []).index 0 = none ∧
    (Array.from_vec []).index_mut_write 0 Point.default = none := by
  decide

/-- Claim C1, amended to populated arrays: when the array has length > 0,
`get_element`, `Index` and a write through `IndexMut` resolve to the slot at
the index when it is in bounds and fall back to slot 0 otherwise, and none
of them panics. -/
theorem index_ops_resolve_or_fallback (a : Array) (i : Nat) (p : Point)
    (h : 0 < a.size) :
    a.get_element i = a.data[if i < a.size then i else 0]? ∧
    (a.get_element i).isSome = true ∧
    a.index i = a.get_element i ∧
    a.index_mut_write i p = some ⟨a.data.set (if i < a.size then i else 0) p⟩ := by
  have hl : 0 < a.data.length := h
  by_cases hi : i < a.data.length
  · simp [Array.get_element, Array.index, Array.index_mut_write, Array.size, hi,
      List.getElem?_eq_getElem hi]
  · simp [Array.get_element, Array.index, Array.index_mut_write, Array.size, hi, hl,
      List.getElem?_eq_getElem hl]

/-- Witness for the amended claim C1 at a one-element array and the
out-of-bounds index 5. -/
theorem index_ops_resolve_or_fallback_witness :
    0 < (Array.from_vec [Point.new 1 2]).size ∧
    ((Array.from_vec [Point.new 1 2]).get_element 5 =
        (Array.from_vec [Point.new 1 2]).data[
          if 5 < (Array.from_vec [Point.new 1 2]).size then 5 else 0]? ∧
      ((Array.from_vec [Point.new 1 2]).get_element 5).isSome = true ∧
      (Array.from_vec [Point.new 1 2]).index 5 =
        (Array.from_vec [Point.new 1 2]).get_element 5 ∧
      (Array.from_vec [Point.new 1 2]).index_mut_write 5 (Point.new 3 4) =
        some ⟨(Array.from_vec [Point.new 1 2]).data.set
          (if 5 < (Array.from_vec [Point.new 1 2]).size then 5 else 0) (Point.new 3 4)⟩) :=
  ⟨by decide, index_ops_resolve_or_fallback (Array.from_vec [Point.new 1 2]) 5
    (Point.new 3 4) (by decide)⟩

/-- Claim C2: after `let b = a.clone();` on a populated array, writing an
element of `a` leaves every element of `b` holding the original values, and
writing an element of `b` leaves every element of `a` holding the original
values; lengths are also preserved. The final conjunct checks that the write
into the source really lands, so the independence is not vacuous. -/
theorem clone_deep_copy (a : Array) (i j : Nat) (p : Point)
    (h : 0 < a.size) (hi : i < a.size) :
    ((a.clone_write_source i p).2).data[j]? = a.data[j]? ∧
    ((a.clone_write_clone i p).1).data[j]? = a.data[j]? ∧
    ((a.clone_write_source i p).2).size = a.size ∧
    ((a.clone_write_clone i p).1).size = a.size ∧
    ((a.clone_write_source i p).1).data[i]? = some p := by
  have hil : i < a.data.length := hi
  refine ⟨rfl, rfl, rfl, rfl, ?_⟩
  simp [Array.clone_write_source, Array.set_element, hil, List.getElem?_set_self hil]

/-- Witness for claim C2 at a two-element array, writing slot 0 and reading
slot 0 of the other copy. -/
theorem clone_deep_copy_witness :
    0 < (Array.from_vec [Point.new 1 2, Point.new 3 4]).size ∧
    0 < (Array.from_vec [Point.new 1 2, Point.new 3 4]).size ∧
    ((((Array.from_vec [Point.new 1 2, Point.new 3 4]).clone_write_source 0
          (Point.new 9 9)).2).data[0]? =
        (Array.from_vec [Point.new 1 2, Point.new 3 4]).data[0]? ∧
      (((Array.from_vec [Point.new 1 2, Point.new 3 4]).clone_write_clone 0
          (Point.new 9 9)).1).data[0]? =
        (Array.from_vec [Point.new 1 2, Point.new 3 4]).data[0]? ∧
      (((Array.from_vec [Point.new 1 2, Point.new 3 4]).clone_write_source 0
          (Point.new 9 9)).2).size =
        (Array.from_vec [Point.new 1 2, Point.new 3 4]).size ∧
      (((Array.from_vec [Point.new 1 2, Point.new 3 4]).clone_write_clone 0
          (Point.new 9 9)).1).size =
        (Array.from_vec [Point.new 1 2, Point.new 3 4]).size ∧
      (((Array.from_vec [Point.new 1 2, Point.new 3 4]).clone_write_source 0
          (Point.new 9 9)).1).data[0]? = some (Point.new 9 9)) :=
  ⟨by decide, by decide,
    clone_deep_copy (Array.from_vec [Point.new 1 2, Point.new 3 4]) 0 0
      (Point.new 9 9) (by decide) (by decide)⟩

/-- Claim C3: on an Array of size `n > 0` whose slot 0 holds `p0`, reading
any out-of-bounds index `n + k` returns `p0`, and writing any out-of-bounds
index `n + k` is a silent no-op that leaves the array entirely unchanged. -/
theorem out_of_bounds_fallback (a : Array) (n k : Nat) (p0 q : Point)
    (hn : a.size = n) (h0 : 0 < n) (hp0 : a.data[0]? = some p0) :
    a.get_element (n + k) = some p0 ∧
    a.set_element (n + k) q = a := by
  have hlen : a.data.length = n := hn
  have hge : ¬ (n + k < a.data.length) := by omega
  constructor
  · simpa [Array.get_element, hge] using hp0
  · simp [Array.set_element, hge]

/-- Witness for claim C3 at a two-element array with `k = 5`. -/
theorem out_of_bounds_fallback_witness :
    (Array.from_vec [Point.new 1 2, Point.new 3 4]).size = 2 ∧ 0 < 2 ∧
    (Array.from_vec [Point.new 1 2, Point.new 3 4]).data[0]? = some (Point.new 1 2) ∧
    ((Array.from_vec [Point.new 1 2, Point.new 3 4]).get_element (2 + 5) =
        some (Point.new 1 2) ∧
      (Array.from_vec [Point.new 1 2, Point.new 3 4]).set_element (2 + 5) (Point.new 7 7) =
        Array.from_vec [Point.new 1 2, Point.new 3 4]) :=
  ⟨by decide, by decide, by decide,
    out_of_bounds_fallback (Array.from_vec [Point.new 1 2, Point.new 3 4]) 2 5
      (Point.new 1 2) (Point.new 7 7) (by decide) (by decide) (by decide)⟩

/-- Claim C9: an in-bounds `set_element(i, p)` writes `p` at slot `i` and
changes nothing else — the length is preserved and every other slot reads
its old value. -/
theorem set_element_frame (a : Array) (i j : Nat) (p : Point)
    (h : i < a.size) (hj : j ≠ i) :
    (a.set_element i p).size = a.size ∧
    (a.set_element i p).data[i]? = some p ∧
    (a.set_element i p).data[j]? = a.data[j]? := by
  have hil : i < a.data.length := h
  refine ⟨?_, ?_, ?_⟩
  · simp [Array.set_element, Array.size, hil]
  · simp [Array.set_element, hil, List.getElem?_set_self hil]
  · simp [Array.set_element, hil, List.getElem?_set_ne (Ne.symm hj)]

/-- Witness for claim C9 at a two-element array, writing slot 1 and reading
slot 0. -/
theorem set_element_frame_witness :
    1 < (Array.from_vec [Point.new 1 2, Point.new 3 4]).size ∧ (0 : Nat) ≠ 1 ∧
    (((Array.from_vec [Point.new 1 2, Point.new 3 4]).set_element 1 (Point.new 9 9)).size =
        (Array.from_vec [Point.new 1 2, Point.new 3 4]).size ∧
      ((Array.from_vec [Point.new 1 2, Point.new 3 4]).set_element 1 (Point.new 9 9)).data[1]? =
        some (Point.new 9 9) ∧
      ((Array.from_vec [Point.new 1 2, Point.new 3 4]).set_element 1 (Point.new 9 9)).data[0]? =
        (Array.from_vec [Point.new 1 2, Point.new 3 4]).data[0]?) :=
  ⟨by decide, by decide,
    set_element_frame (Array.from_vec [Point.new 1 2, Point.new 3 4]) 1 0
      (Point.new 9 9) (by decide) (by decide)⟩

/-- Claim C7: converting a sequence of points to an Array with
`Array::from` and back with `Vec::from` yields exactly the original
sequence, same order and same length. -/
theorem from_vec_to_vec_round_trip (v : List Point) :
    Array.to_vec (Array.from_vec v) = v := rfl

/-- Claim C8: `resize(size())` leaves the array unchanged — the length and
every element are identical to their values before the call. -/
theorem resize_size_noop (a : Array) : a.resize a.size = a := by
  simp [Array.resize, Array.size]

/-- Claim C4 as stated is false at the given input: the centroid of
`(0,0), (2,0), (1,2)` is exactly `(1, 2/3)`, whose y component is not the
four-decimal rounding `0.6667`. -/
theorem centroid_concrete_ne_rounded :
    (Array.from_vec [Point.new 0 0, Point.new 2 0, Point.new 1 2]).centroid ≠
      Point.new 1 (6667 / 10000) := by
  simp [Array.centroid, Array.from_vec, Point.mul, Point.new, List.foldl, Point.add_def]
  norm_num

/-- Claim C4, amended: `centroid` returns the componentwise mean of the
stored points and `Point::default()` for the empty array; in particular the
centroid of `(0,0), (2,0), (1,2)` is exactly `(1, 2/3)` (of which `0.6667`
is only the four-decimal rounding). -/
theorem centroid_componentwise_mean (a : Array) :
    (a.centroid = if a.data.length = 0 then Point.default
      else Point.new ((a.data.map Point.x).sum / (a.data.length : ℚ))
        ((a.data.map Point.y).sum / (a.data.length : ℚ))) ∧
    (Array.from_vec [Point.new 0 0, Point.new 2 0, Point.new 1 2]).centroid =
      Point.new 1 (2 / 3) := by
  constructor
  · obtain ⟨l⟩ := a
    cases l with
    | nil => simp [Array.centroid, Point.default]
    | cons p t =>
      simp only [Array.centroid, List.isEmpty_cons, Bool.false_eq_true, if_false, Point.mul,
        foldl_add_x, foldl_add_y]
      simp [Point.new, div_eq_mul_inv]
  · simp [Array.centroid, Array.from_vec, Point.mul, Point.new, List.foldl, Point.add_def]
    norm_num

/-- Claim C5: two circles intersect exactly when the distance between their
centers lies between the absolute difference and the sum of the radii,
tangency inclusive; this holds for an arbitrary square-root function. -/
theorem intersects_iff_radius_band (sqrt : ℚ → ℚ) (c1 c2 : Circle) :
    Circle.intersects sqrt c1 c2 = true ↔
      (|c1.radius - c2.radius| ≤ Point.distance sqrt c1.center c2.center ∧
        Point.distance sqrt c1.center c2.center ≤ c1.radius + c2.radius) := by
  simp [Circle.intersects, ge_iff_le, and_comm]

/-- Claim C6: `slope` returns `None` exactly for the vertical-line case
where the x extent is below `f64::EPSILON`, and otherwise returns the rise
over the run. -/
theorem slope_none_iff_vertical (l : Line) :
    (l.slope = none ↔ |l.endp.x - l.start.x| < f64_EPSILON) ∧
    (f64_EPSILON ≤ |l.endp.x - l.start.x| →
      l.slope = some ((l.endp.y - l.start.y) / (l.endp.x - l.start.x))) := by
  constructor
  · by_cases hd : |l.endp.x - l.start.x| < f64_EPSILON <;> simp [Line.slope, hd]
  · intro hge
    have hd : ¬ |l.endp.x - l.start.x| < f64_EPSILON := not_lt.mpr hge
    simp [Line.slope, hd]

/-- Witness for claim C6 on the non-vertical line from the origin to
`(1, 2)`, whose slope is `2`. -/
theorem slope_none_iff_vertical_witness :
    f64_EPSILON ≤ |(Point.new 1 2).x - (Point.new 0 0).x| ∧
    (Line.mk (Point.new 0 0) (Point.new 1 2)).slope =
      some (((Point.new 1 2).y - (Point.new 0 0).y) / ((Point.new 1 2).x - (Point.new 0 0).x)) :=
  ⟨by norm_num [f64_EPSILON, Point.new],
    (slope_none_iff_vertical (Line.mk (Point.new 0 0) (Point.new 1 2))).2
      (by norm_num [f64_EPSILON, Point.new])⟩

/-- Claim C10: `total_path_distance` is exactly 0 for fewer than two points,
and in general is the sum over consecutive pairs of their distances; this
holds for an arbitrary square-root function. -/
theorem total_path_distance_consecutive_sum (sqrt : ℚ → ℚ) (a : Array) :
    (a.data.length < 2 → a.total_path_distance sqrt = 0) ∧
    a.total_path_distance sqrt =
      ∑ i ∈ Finset.range (a.data.length - 1),
        Point.distance sqrt (a.data.getD i Point.default)
          (a.data.getD (i + 1) Point.default) := by
  constructor
  · intro h2
    simp [Array.total_path_distance, h2]
  · by_cases h2 : a.data.length < 2
    · have h1 : a.data.length - 1 = 0 := by omega
      simp [Array.total_path_distance, h2, h1]
    · simp [Array.total_path_distance, h2, zip_tail_distance_sum]

/-- Witness for claim C10 at a one-element array: fewer than two points, so
the total path distance is 0 (here with the identity as the square-root
parameter). -/
theorem total_path_distance_witness :
    (Array.from_vec [Point.new 1 2]).data.length < 2 ∧
    (Array.from_vec [Point.new 1 2]).total_path_distance id = 0 :=
  ⟨by decide,
    (total_path_distance_consecutive_sum id (Array.from_vec [Point.new 1 2])).1 (by decide)⟩

end QN
